import Mathlib

/-!
Verification of the ImGuiUtils positioning/layout library.

The embedding models `ImVec2` (a 2D float vector) with exact rational
coordinates, the `Position` namespace's layout functions from
`PositionTools.cpp`, the `Window` scaling state machine from `Window.cpp`,
the event trace of `Window::render`, and the grid-population loop of
`Draw::PopulateGrid` from `DrawTools.cpp`.

C++ `float` arithmetic is modelled by `ℚ`; C++ `int` by `ℤ` with
truncated division (`Int.tdiv` / `Int.tmod`), matching C++ semantics for
`/` and `%`.
-/

/-- The 2D vector type of the rendering library (`ImVec2`), with exact
rational coordinates standing in for `float`. -/
structure ImVec2 where
  x : ℚ
  y : ℚ
deriving DecidableEq, Repr

namespace ImVec2

/-- `operator+` from ImVec2Operators.h: component-wise addition. -/
instance : Add ImVec2 := ⟨fun lhs rhs => ⟨lhs.x + rhs.x, lhs.y + rhs.y⟩⟩

/-- `operator-` from ImVec2Operators.h: component-wise subtraction. -/
instance : Sub ImVec2 := ⟨fun lhs rhs => ⟨lhs.x - rhs.x, lhs.y - rhs.y⟩⟩

/-- `operator*` from ImVec2Operators.h: scalar multiplication. -/
instance : HMul ImVec2 ℚ ImVec2 := ⟨fun lhs rhs => ⟨lhs.x * rhs, lhs.y * rhs⟩⟩

/-- `operator/` from ImVec2Operators.h: scalar division. -/
instance : HDiv ImVec2 ℚ ImVec2 := ⟨fun lhs rhs => ⟨lhs.x / rhs, lhs.y / rhs⟩⟩

end ImVec2

namespace Position

/-- `Position::RightAlign` from PositionTools.cpp. -/
def RightAlign (origin : ImVec2) (documentWidth lineHeight : ℚ) (line : ℤ)
    (objectDimensions : ImVec2) : ImVec2 :=
  origin + ⟨documentWidth, (line : ℚ) * lineHeight⟩ - objectDimensions

/-- `Position::LeftAlign` from PositionTools.cpp. -/
def LeftAlign (origin : ImVec2) (lineHeight : ℚ) (line : ℤ)
    (objectDimensions : ImVec2) : ImVec2 :=
  origin - ⟨0, lineHeight * (line : ℚ)⟩ - ⟨0, objectDimensions.y⟩

/-- `Position::CenterAlign` from PositionTools.cpp. -/
def CenterAlign (origin : ImVec2) (documentWidth lineHeight : ℚ) (line : ℤ)
    (objectDimensions : ImVec2) : ImVec2 :=
  let x := origin.x + ((documentWidth - objectDimensions.x) / 2)
  let y := origin.y + (line : ℚ) * lineHeight
  ⟨x, y⟩

/-- `Position::Center2D` from PositionTools.cpp. -/
def Center2D (origin targetObjectDimensions centeredObjectDimensions : ImVec2) : ImVec2 :=
  origin + ⟨(targetObjectDimensions.x - centeredObjectDimensions.x) / 2,
            (targetObjectDimensions.y - centeredObjectDimensions.y) / 2⟩

/-- `Position::GridTranslocatedOrigin` from PositionTools.cpp.  C++ `int`
division and modulus are truncated, hence `Int.tdiv` / `Int.tmod`. -/
def GridTranslocatedOrigin (origin : ImVec2) (cellWidth cellHeight gridlineWidth : ℚ)
    (columns rows cellNumber : ℤ) : ImVec2 :=
  let origin := origin + ⟨gridlineWidth, gridlineWidth⟩
  let horizontalDisplacement := cellWidth + gridlineWidth
  let verticalDisplacement := cellHeight + gridlineWidth
  let row := cellNumber.tdiv rows
  let col := cellNumber.tmod columns
  let x := origin.x + (col : ℚ) * horizontalDisplacement
  let y := origin.y + (row : ℚ) * verticalDisplacement
  ⟨x, y⟩

/-- `Position::FrameWithin` from PositionTools.cpp. -/
def FrameWithin (outerFrame innerFrame : ImVec2) (padding : ℚ) : ImVec2 :=
  let innerAspectRatio := innerFrame.x / innerFrame.y
  let outerAspectRatio := outerFrame.x / outerFrame.y
  if innerAspectRatio > outerAspectRatio then
    -- Fit width, adjust height to preserve aspect ratio
    let x := outerFrame.x - 2 * padding
    let y := x / innerAspectRatio
    ⟨x, y⟩
  else
    -- Fit height, adjust width to preserve aspect ratio
    let y := outerFrame.y - 2 * padding
    let x := y * innerAspectRatio
    ⟨x, y⟩

/-- The conventional row-major grid placement, written from the spec's words
for comparison with `GridTranslocatedOrigin`: `row = cellNumber / columns`,
`col = cellNumber % columns`. -/
def gridRowMajorOrigin (origin : ImVec2) (cellWidth cellHeight gridlineWidth : ℚ)
    (columns rows cellNumber : ℤ) : ImVec2 :=
  let origin := origin + ⟨gridlineWidth, gridlineWidth⟩
  let horizontalDisplacement := cellWidth + gridlineWidth
  let verticalDisplacement := cellHeight + gridlineWidth
  let row := cellNumber.tdiv columns
  let col := cellNumber.tmod columns
  let x := origin.x + (col : ℚ) * horizontalDisplacement
  let y := origin.y + (row : ℚ) * verticalDisplacement
  ⟨x, y⟩

end Position

/-- `DEFAULT_VIEWPORT_WIDTH` from Window.h. -/
def defaultViewportWidth : ℚ := 3840

/-- `DEFAULT_VIEWPORT_HEIGHT` from Window.h. -/
def defaultViewportHeight : ℚ := 2160

/-- The geometric state of a `Window` (Window.h): designed geometry, the
instantaneous `width`/`height`/`dimensions`/`position`, the scaling
variables and the cached previous viewport size. -/
structure WindowState where
  designedWidth : ℚ
  designedHeight : ℚ
  designedPositionX : ℚ
  designedPositionY : ℚ
  width : ℚ
  height : ℚ
  dimensions : ImVec2
  position : ImVec2
  scaleX : ℚ
  scaleY : ℚ
  scaleAvg : ℚ
  previousViewportWidth : ℚ
  previousViewportHeight : ℚ
deriving DecidableEq, Repr

/-- The `Window` constructor (Window.cpp): instantaneous geometry starts at
the designed values, the scaling variables at their field initializers
(`1.0f` and the default viewport size). -/
def mkWindow (dWidth dHeight posX posY : ℚ) : WindowState :=
  { designedWidth := dWidth
    designedHeight := dHeight
    designedPositionX := posX
    designedPositionY := posY
    width := dWidth
    height := dHeight
    dimensions := ⟨dWidth, dHeight⟩
    position := ⟨posX, posY⟩
    scaleX := 1
    scaleY := 1
    scaleAvg := 1
    previousViewportWidth := defaultViewportWidth
    previousViewportHeight := defaultViewportHeight }

/-- `Window::updateScale` (Window.cpp), with the observed viewport work size
passed explicitly.  Each axis is compared against the cached previous
viewport size; the `altered` flag records whether either branch fired, and
only then are `scaleAvg`, `dimensions` and `position` recomputed. -/
def updateScale (w : WindowState) (viewportWidth viewportHeight : ℚ) : WindowState :=
  -- if (viewportWidth != previousViewportWidth) { ... altered = true; }
  let w1 :=
    if viewportWidth ≠ w.previousViewportWidth then
      { w with scaleX := viewportWidth / defaultViewportWidth,
               previousViewportWidth := viewportWidth }
    else w
  -- if (viewportHeight != previousViewportHeight) { ... altered = true; }
  let w2 :=
    if viewportHeight ≠ w.previousViewportHeight then
      { w1 with scaleY := viewportHeight / defaultViewportHeight,
                previousViewportHeight := viewportHeight }
    else w1
  -- if (altered) { ... }
  if viewportWidth ≠ w.previousViewportWidth ∨ viewportHeight ≠ w.previousViewportHeight then
    { w2 with scaleAvg := (w2.scaleX + w2.scaleY) * (1 / 2),
              dimensions := ⟨w2.designedWidth * w2.scaleX, w2.designedHeight * w2.scaleY⟩,
              position := ⟨w2.designedPositionX * w2.scaleX, w2.designedPositionY * w2.scaleY⟩ }
  else w2

/-- The derived-geometry invariant of C6: the instantaneous dimensions and
position are the designed values multiplied component-wise by the current
per-axis scale. -/
def geomInv (w : WindowState) : Prop :=
  w.dimensions = ⟨w.designedWidth * w.scaleX, w.designedHeight * w.scaleY⟩ ∧
  w.position = ⟨w.designedPositionX * w.scaleX, w.designedPositionY * w.scaleY⟩

instance (w : WindowState) : Decidable (geomInv w) := by
  unfold geomInv; infer_instance

/-- Calls made by `Window::render` and its helpers into the external
rendering library, recorded as an event trace. -/
inductive RenderEvent where
  | getTime
  | scaleUpdate
  | pushBgColor
  | setNextPos
  | setNextSize
  | beginRegion
  | popBgColor
  | endRegion
  | contentStep (n : ℕ)
deriving DecidableEq, Repr

/-- The behavior of a concrete subclass's `draw()` override: the events it
emits, and whether it exits by raising an error (a C++ exception
propagating out of `render`). -/
structure DrawBehavior where
  events : List RenderEvent
  throws : Bool
deriving DecidableEq, Repr

/-- The trace of `Window::buildStart` (Window.cpp).  `updateScale` runs only
when the build permits resizing (the `DEBUG` preprocessor mode, passed here
as `debugMode`); the background color is pushed when `hasBackground`, the
window is opened with `ImGui::Begin`, and the pushed color is popped. -/
def buildStartEvents (debugMode hasBackground : Bool) : List RenderEvent :=
  (if debugMode then [RenderEvent.scaleUpdate] else [])
    ++ (if hasBackground then [RenderEvent.pushBgColor] else [])
    ++ [RenderEvent.setNextPos, RenderEvent.setNextSize, RenderEvent.beginRegion]
    ++ (if hasBackground then [RenderEvent.popBgColor] else [])

/-- The trace of `Window::buildEnd` (Window.cpp): `ImGui::End()`. -/
def buildEndEvents : List RenderEvent := [RenderEvent.endRegion]

/-- The trace of `Window::render` (Window.cpp):
`currentTime = ImGui::GetTime(); buildStart(); draw(); buildEnd();` as plain
sequential statements.  When `draw()` raises, the exception propagates and
the remaining statement (`buildEnd`) does not execute. -/
def renderEvents (debugMode hasBackground : Bool) (draw : DrawBehavior) :
    List RenderEvent :=
  [RenderEvent.getTime]
    ++ buildStartEvents debugMode hasBackground
    ++ draw.events
    ++ (if draw.throws then [] else buildEndEvents)

/-- The loop state of `Draw::PopulateGrid` (DrawTools.cpp): the guard
counter `cellIndex`, whether the early `return` has fired, and the list of
vector indices used to access `images`. -/
structure GridLoopState where
  cellIndex : ℕ
  stopped : Bool
  accesses : List ℕ
deriving DecidableEq, Repr

/-- One iteration of the inner loop body of `Draw::PopulateGrid`: if the
early `return` already fired nothing happens; if `cellIndex >= imageCount`
the function returns; otherwise `images[i]` is accessed (with
`i = currentRow * columns + currentColumn` supplied by the caller) and
`cellIndex` is incremented. -/
def gridCellVisit (imageCount : ℕ) (s : GridLoopState) (i : ℕ) : GridLoopState :=
  if s.stopped then s
  else if imageCount ≤ s.cellIndex then { s with stopped := true }
  else { cellIndex := s.cellIndex + 1, stopped := false,
         accesses := s.accesses ++ [i] }

/-- The nested loops of `Draw::PopulateGrid`:
`for currentRow in 0..rows, for currentColumn in 0..columns`, each cell
accessing index `currentRow * columns + currentColumn`. -/
def populateGridRun (columns rows imageCount : ℕ) : GridLoopState :=
  (List.range rows).foldl
    (fun s currentRow =>
      (List.range columns).foldl
        (fun s' currentColumn =>
          gridCellVisit imageCount s' (currentRow * columns + currentColumn))
        s)
    ⟨0, false, []⟩

/-- The indices with which `Draw::PopulateGrid` accesses the `images`
vector, in access order. -/
def populateGridAccesses (columns rows imageCount : ℕ) : List ℕ :=
  (populateGridRun columns rows imageCount).accesses

/-! Component lemmas for the `ImVec2` operators. -/

@[simp] theorem ImVec2.add_x (a b : ImVec2) : (a + b).x = a.x + b.x := rfl
@[simp] theorem ImVec2.add_y (a b : ImVec2) : (a + b).y = a.y + b.y := rfl
@[simp] theorem ImVec2.sub_x (a b : ImVec2) : (a - b).x = a.x - b.x := rfl
@[simp] theorem ImVec2.sub_y (a b : ImVec2) : (a - b).y = a.y - b.y := rfl
@[simp] theorem ImVec2.mul_x (a : ImVec2) (k : ℚ) : (a * k).x = a.x * k := rfl
@[simp] theorem ImVec2.mul_y (a : ImVec2) (k : ℚ) : (a * k).y = a.y * k := rfl
@[simp] theorem ImVec2.div_x (a : ImVec2) (k : ℚ) : (a / k).x = a.x / k := rfl
@[simp] theorem ImVec2.div_y (a : ImVec2) (k : ℚ) : (a / k).y = a.y / k := rfl

@[ext] theorem ImVec2.ext {a b : ImVec2} (hx : a.x = b.x) (hy : a.y = b.y) : a = b := by
  cases a; cases b; simp_all

/-- C1: `GridTranslocatedOrigin` returns exactly
`(O.x + gl + col*(cw+gl), O.y + gl + row*(ch+gl))` with `row = cellNumber / rows`
(truncated integer division — dividing by `rows`, not `columns`) and
`col = cellNumber % columns`; in particular for `columns = 3`, `rows = 3`,
`gl = 2`, `cw = ch = 10`, `cellNumber = 4` the result is `O + (14, 14)`. -/
theorem gridTranslocatedOrigin_formula (O : ImVec2) (cw ch gl : ℚ)
    (columns rows cellNumber : ℤ) :
    Position.GridTranslocatedOrigin O cw ch gl columns rows cellNumber =
      ⟨O.x + gl + (cellNumber.tmod columns : ℚ) * (cw + gl),
       O.y + gl + (cellNumber.tdiv rows : ℚ) * (ch + gl)⟩ ∧
    Position.GridTranslocatedOrigin O 10 10 2 3 3 4 = O + ⟨14, 14⟩ := by
  constructor
  · simp only [Position.GridTranslocatedOrigin]
    ext <;> simp <;> ring
  · simp only [Position.GridTranslocatedOrigin, Int.tdiv, Int.tmod]
    ext <;> simp <;> ring

/-- C4: `FrameWithin` fits width when the inner aspect ratio exceeds the
outer one, and otherwise fits height; in particular
`FrameWithin ((200,100), (16,9), 0)` takes the fit-height branch and yields
`(100·(16/9), 100) = (1600/9, 100)`. -/
theorem frameWithin_fit (F I : ImVec2) (p : ℚ) :
    (I.x / I.y > F.x / F.y →
      Position.FrameWithin F I p = ⟨F.x - 2 * p, (F.x - 2 * p) / (I.x / I.y)⟩) ∧
    (¬ (I.x / I.y > F.x / F.y) →
      Position.FrameWithin F I p = ⟨(F.y - 2 * p) * (I.x / I.y), F.y - 2 * p⟩) ∧
    Position.FrameWithin ⟨200, 100⟩ ⟨16, 9⟩ 0 = ⟨100 * (16 / 9), 100⟩ := by
  refine ⟨fun h => ?_, fun h => ?_, ?_⟩
  · simp only [Position.FrameWithin, if_pos h]
  · simp only [Position.FrameWithin, if_neg h]
  · simp only [Position.FrameWithin]
    norm_num

/-- Witness for C4: a concrete input taking the fit-width branch
(outer 100×100, inner 40×10, padding 5). -/
theorem frameWithin_fit_witness :
    Position.FrameWithin ⟨100, 100⟩ ⟨40, 10⟩ 5 =
      ⟨(100 : ℚ) - 2 * 5, ((100 : ℚ) - 2 * 5) / ((40 : ℚ) / 10)⟩ :=
  (frameWithin_fit ⟨100, 100⟩ ⟨40, 10⟩ 5).1 (by norm_num)

/-- C5: `LeftAlign` returns `(O.x, O.y − h·l − S.y)` (subtracting on the
y-axis), `RightAlign` returns `O + (w, l·h) − S`, and `CenterAlign` returns
`(O.x + (w − S.x)/2, O.y + l·h)` (both adding on the y-axis). -/
theorem documentAlign_formulas (O : ImVec2) (w h : ℚ) (l : ℤ) (S : ImVec2) :
    Position.LeftAlign O h l S = ⟨O.x, O.y - h * (l : ℚ) - S.y⟩ ∧
    Position.RightAlign O w h l S = O + ⟨w, (l : ℚ) * h⟩ - S ∧
    Position.CenterAlign O w h l S = ⟨O.x + (w - S.x) / 2, O.y + (l : ℚ) * h⟩ := by
  refine ⟨?_, rfl, rfl⟩
  simp only [Position.LeftAlign]
  ext <;> simp

/-- C7: the object placed by `Center2D` has its center at the target's
center: `Center2D O T S + S/2 = O + T/2` (exactly, in the rational model). -/
theorem center2D_centers (O T S : ImVec2) :
    Position.Center2D O T S + S / (2 : ℚ) = O + T / (2 : ℚ) := by
  simp only [Position.Center2D]
  ext <;> simp <;> ring

/-- C8: scaling a vector by a nonzero scalar and dividing back is the
identity: `(v * k) / k = v` for every `k ≠ 0`. -/
theorem mul_div_cancel_vec (v : ImVec2) (k : ℚ) (hk : k ≠ 0) :
    (v * k) / k = v := by
  ext <;> simp <;> exact mul_div_cancel_right₀ _ hk

/-- Witness for C8 at `v = (3, -7)`, `k = 5`. -/
theorem mul_div_cancel_vec_witness :
    ((⟨3, -7⟩ : ImVec2) * (5 : ℚ)) / (5 : ℚ) = ⟨3, -7⟩ :=
  mul_div_cancel_vec ⟨3, -7⟩ 5 (by norm_num)

/-- C10: on a square grid (`columns = rows = n`, `n > 0`) the code's
divide-by-rows indexing coincides with conventional row-major placement, for
every cell number. -/
theorem gridTranslocatedOrigin_square_rowMajor (O : ImVec2) (cw ch gl : ℚ)
    (n cellNumber : ℤ) (hn : 0 < n) :
    Position.GridTranslocatedOrigin O cw ch gl n n cellNumber =
      Position.gridRowMajorOrigin O cw ch gl n n cellNumber := rfl

/-- Witness for C10 on a 3×3 grid at cell 7. -/
theorem gridTranslocatedOrigin_square_rowMajor_witness :
    Position.GridTranslocatedOrigin ⟨0, 0⟩ 10 10 2 3 3 7 =
      Position.gridRowMajorOrigin ⟨0, 0⟩ 10 10 2 3 3 7 :=
  gridTranslocatedOrigin_square_rowMajor ⟨0, 0⟩ 10 10 2 3 7 (by norm_num)

/-- C2: `updateScale` recomputes `scaleX` iff the observed width differs
from the cached previous viewport width, recomputes `scaleY` iff the
observed height differs from the cached previous viewport height (the two
axes checked independently); when neither differs the state is left exactly
unchanged, so a second observation of an identical size is a no-op. -/
theorem updateScale_memoization (w : WindowState) (vw vh : ℚ) :
    ((updateScale w vw vh).scaleX =
        if vw = w.previousViewportWidth then w.scaleX else vw / defaultViewportWidth) ∧
    ((updateScale w vw vh).scaleY =
        if vh = w.previousViewportHeight then w.scaleY else vh / defaultViewportHeight) ∧
    (vw = w.previousViewportWidth → vh = w.previousViewportHeight →
        updateScale w vw vh = w) ∧
    updateScale (updateScale w vw vh) vw vh = updateScale w vw vh := by
  by_cases hw : vw = w.previousViewportWidth <;>
    by_cases hh : vh = w.previousViewportHeight <;>
    simp [updateScale, hw, hh]

/-- Witness for C2: observing the constructor's default viewport size leaves
a freshly constructed window unchanged. -/
theorem updateScale_memoization_witness :
    updateScale (mkWindow 5 6 7 8) 3840 2160 = mkWindow 5 6 7 8 :=
  (updateScale_memoization (mkWindow 5 6 7 8) 3840 2160).2.2.1 rfl rfl

/-- C6: a window designed at `(100, 100)` against the `(3840, 2160)`
reference viewport, observing surface size `(1920, 1080)`, gets scale
`(1/2, 1/2)` and instantaneous dimensions `(50, 50)`; the constructor
establishes, and `updateScale` preserves, the derived-geometry invariant
`dimensions = designed * scale` and `position = designedPosition * scale`. -/
theorem window_scale_geometry (dW dH pX pY vw vh : ℚ) (w : WindowState) :
    ((updateScale (mkWindow 100 100 pX pY) 1920 1080).scaleX = 1 / 2 ∧
     (updateScale (mkWindow 100 100 pX pY) 1920 1080).scaleY = 1 / 2 ∧
     (updateScale (mkWindow 100 100 pX pY) 1920 1080).dimensions = ⟨50, 50⟩) ∧
    geomInv (mkWindow dW dH pX pY) ∧
    (geomInv w → geomInv (updateScale w vw vh)) := by
  refine ⟨?_, ?_, ?_⟩
  · simp [updateScale, mkWindow, defaultViewportWidth, defaultViewportHeight]
    norm_num
  · simp [geomInv, mkWindow]
  · intro h
    by_cases hw : vw = w.previousViewportWidth <;>
      by_cases hh : vh = w.previousViewportHeight <;>
      simp_all [updateScale, geomInv, hw, hh]

/-- Witness for C6: the preservation step applied to a freshly constructed
window observing `(1920, 1080)`. -/
theorem window_scale_geometry_witness :
    geomInv (updateScale (mkWindow 1 2 3 4) 1920 1080) :=
  (window_scale_geometry 1 2 3 4 1920 1080 (mkWindow 1 2 3 4)).2.2
    (by simp [geomInv, mkWindow])

/-- Counterexample for C3 as stated: with a `draw()` callback that raises,
the region opened by `buildStart` (`ImGui::Begin`) is never closed —
`render` runs no `ImGui::End`, so open and close are not paired on the
error path. -/
theorem render_throw_unbalanced :
    (renderEvents true true ⟨[], true⟩).count RenderEvent.beginRegion = 1 ∧
    (renderEvents true true ⟨[], true⟩).count RenderEvent.endRegion = 0 := by
  decide

/-- C3 (amended): `render()` performs, in strict order, (1) conditionally
the scale update, (2) opening the region (pushing the background color when
visible), (3) the `draw()` callback, (4) closing the region — but the close
of step (4) happens only on normal exits: when `draw()` raises, `render`
does not close the region, so the open/close pair is balanced exactly on
the non-throwing paths. -/
theorem render_order (debugMode hasBackground : Bool) (draw : DrawBehavior) :
    renderEvents debugMode hasBackground draw =
      [RenderEvent.getTime]
        ++ (if debugMode then [RenderEvent.scaleUpdate] else [])
        ++ (if hasBackground then [RenderEvent.pushBgColor] else [])
        ++ [RenderEvent.setNextPos, RenderEvent.setNextSize, RenderEvent.beginRegion]
        ++ (if hasBackground then [RenderEvent.popBgColor] else [])
        ++ draw.events
        ++ (if draw.throws then [] else [RenderEvent.endRegion]) ∧
    (draw.throws = false →
      RenderEvent.beginRegion ∉ draw.events →
      RenderEvent.endRegion ∉ draw.events →
      (renderEvents debugMode hasBackground draw).count RenderEvent.beginRegion = 1 ∧
      (renderEvents debugMode hasBackground draw).count RenderEvent.endRegion = 1) := by
  constructor
  · simp [renderEvents, buildStartEvents, buildEndEvents]
  · intro ht h1 h2
    have c1 : draw.events.count RenderEvent.beginRegion = 0 :=
      List.count_eq_zero_of_not_mem h1
    have c2 : draw.events.count RenderEvent.endRegion = 0 :=
      List.count_eq_zero_of_not_mem h2
    cases debugMode <;> cases hasBackground <;>
      simp [renderEvents, buildStartEvents, buildEndEvents, ht,
            List.count_append, List.count_cons, c1, c2]

/-- Witness for C3 (amended): a non-throwing `draw()` emitting one content
event yields a trace with exactly one region open and one region close. -/
theorem render_order_witness :
    (renderEvents true true ⟨[RenderEvent.contentStep 0], false⟩).count
        RenderEvent.beginRegion = 1 ∧
    (renderEvents true true ⟨[RenderEvent.contentStep 0], false⟩).count
        RenderEvent.endRegion = 1 :=
  (render_order true true ⟨[RenderEvent.contentStep 0], false⟩).2 rfl
    (by decide) (by decide)

/-- Once the early `return` of `Draw::PopulateGrid` has fired, the remaining
iterations do nothing. -/
theorem foldl_gridCellVisit_stopped (imageCount : ℕ) (l : List ℕ) :
    ∀ s : GridLoopState, s.stopped = true →
      l.foldl (gridCellVisit imageCount) s = s := by
  induction l with
  | nil => intro s _; rfl
  | cons i t ih =>
      intro s hs
      have hstep : gridCellVisit imageCount s i = s := by
        simp [gridCellVisit, hs]
      simp only [List.foldl_cons, hstep]
      exact ih s hs

/-- Running the cell visits of `Draw::PopulateGrid` from a live state with
guard counter `ci` accesses exactly the first `imageCount - ci` cells. -/
theorem foldl_gridCellVisit_accesses (imageCount : ℕ) (l : List ℕ) :
    ∀ (ci : ℕ) (acc : List ℕ),
      (l.foldl (gridCellVisit imageCount) ⟨ci, false, acc⟩).accesses =
        acc ++ l.take (imageCount - ci) := by
  induction l with
  | nil => intro ci acc; simp
  | cons i t ih =>
      intro ci acc
      by_cases hci : imageCount ≤ ci
      · have hstep : gridCellVisit imageCount ⟨ci, false, acc⟩ i =
            ⟨ci, true, acc⟩ := by
          simp [gridCellVisit, hci]
        have hsub : imageCount - ci = 0 := Nat.sub_eq_zero_of_le hci
        simp only [List.foldl_cons, hstep,
          foldl_gridCellVisit_stopped imageCount t ⟨ci, true, acc⟩ rfl, hsub,
          List.take_zero, List.append_nil]
      · have hlt : ci < imageCount := Nat.lt_of_not_le hci
        have hstep : gridCellVisit imageCount ⟨ci, false, acc⟩ i =
            ⟨ci + 1, false, acc ++ [i]⟩ := by
          simp [gridCellVisit, hci]
        have hsub : imageCount - ci = (imageCount - (ci + 1)) + 1 := by omega
        simp only [List.foldl_cons, hstep, ih (ci + 1) (acc ++ [i]), hsub,
          List.take_succ_cons, List.append_assoc, List.singleton_append]

/-- The nested row/column loops of `Draw::PopulateGrid` visit the cell
indices `0, 1, ..., rows*columns − 1` in order: iterating row by row with
index `currentRow * columns + currentColumn` is a fold over
`List.range (rows * columns)`. -/
theorem populateGridRun_eq_foldl_range (columns imageCount : ℕ) :
    ∀ (rows : ℕ) (s : GridLoopState),
      (List.range rows).foldl
        (fun s' currentRow =>
          (List.range columns).foldl
            (fun s'' currentColumn =>
              gridCellVisit imageCount s'' (currentRow * columns + currentColumn))
            s')
        s =
      (List.range (rows * columns)).foldl (gridCellVisit imageCount) s := by
  intro rows
  induction rows with
  | zero => intro s; simp
  | succ n ih =>
      intro s
      rw [List.range_succ, List.foldl_append, ih s, Nat.succ_mul,
        List.range_add, List.foldl_append, List.foldl_map]
      simp only [List.foldl_cons, List.foldl_nil]

/-- C9: for every grid with `columns > 0` and `rows > 0`,
`Draw::PopulateGrid` accesses exactly the indices
`0, 1, ..., min(images.size, columns*rows) − 1` in order — so it draws
exactly `min(images.size, columns*rows)` images, every access is strictly
within the vector's bounds, and the guard counter `cellIndex` always equals
the access expression `currentRow * columns + currentColumn`. -/
theorem populateGrid_in_bounds (columns rows imageCount : ℕ)
    (hc : 0 < columns) (hr : 0 < rows) :
    populateGridAccesses columns rows imageCount =
      List.range (min imageCount (columns * rows)) ∧
    (populateGridAccesses columns rows imageCount).length =
      min imageCount (columns * rows) ∧
    ∀ i ∈ populateGridAccesses columns rows imageCount, i < imageCount := by
  have h1 : populateGridAccesses columns rows imageCount =
      List.range (min imageCount (columns * rows)) := by
    unfold populateGridAccesses populateGridRun
    rw [populateGridRun_eq_foldl_range columns imageCount rows ⟨0, false, []⟩,
      foldl_gridCellVisit_accesses]
    simp [List.take_range, Nat.mul_comm rows columns]
  refine ⟨h1, ?_, ?_⟩
  · rw [h1, List.length_range]
  · intro i hi
    rw [h1, List.mem_range] at hi
    exact lt_of_lt_of_le hi (min_le_left _ _)

/-- Witness for C9: a 2×2 grid populated from a 3-element vector accesses
exactly indices 0, 1, 2. -/
theorem populateGrid_in_bounds_witness :
    populateGridAccesses 2 2 3 = List.range (min 3 (2 * 2)) :=
  (populateGrid_in_bounds 2 2 3 (by norm_num) (by norm_num)).1
